import Mathlib

/-!
Verification of the Nova Sonic voice-assistant session/turn state machine
(`main.py` and `nova_sonic_service.py`), shallowly embedded in Lean 4.

Bytes are modelled as `Nat`, byte strings as `List Nat`.  Outbound stream
events carry the raw payload bytes (the base64 encoding on the wire is a
bijection and is not modelled).  Real-time aspects (timestamps, sleeps,
timeouts, task scheduling) are not modelled; the inactivity watchdog is
modelled by the effect of one triggered iteration of its loop, and the
drain loop of `process_audio_simple` is modelled as consuming the list of
stream responses that arrived during the turn.  Logged warnings are
modelled as explicit `List String` outputs so that claims about logging
are statable.  UUID generation is determinized by a `fresh` counter.
-/

/-- 100 KiB audio buffer cap (`BUFFER_MAX_SIZE = 100 * 1024` in `main.py`). -/
def BUFFER_MAX_SIZE : Nat := 100 * 1024

/-- 4 KiB chunking used by `process_audio_simple` (`chunk_size = 4096`). -/
def chunk_size : Nat := 4096

/-- The last `n` elements of a list (Python slice `l[-n:]` for `n ≤ len`;
for `n ≥ len` it is the whole list, matching the slice as well). -/
def takeLast (n : Nat) (l : List α) : List α := l.drop (l.length - n)

/-- Fuel-driven worker for `chunkList`; `l.length` fuel always suffices
when `n` is positive. -/
def chunkListGo (fuel : Nat) (n : Nat) (l : List α) : List (List α) :=
  match fuel with
  | 0 => []
  | fuel + 1 =>
    match l with
    | [] => []
    | x :: xs => (x :: xs).take n :: chunkListGo fuel n ((x :: xs).drop n)

/-- Split a list into consecutive chunks of `n` elements (the loop
`for i in range(0, len(audio_data), chunk_size)` in `process_audio_simple`). -/
def chunkList (n : Nat) (l : List α) : List (List α) :=
  if n = 0 then [] else chunkListGo l.length n l

/-- `AudioProcessor` state from `main.py` (`last_audio_time`,
`silence_timer`, `is_processing` are real-time bookkeeping, not modelled). -/
@[ext] structure AudioProcessor where
  audio_buffer : List Nat
  has_audio : Bool
deriving DecidableEq

def initAudioProcessor : AudioProcessor := { audio_buffer := [], has_audio := false }

/-- `AudioProcessor.add_audio`: extend the buffer when data is non-empty,
then unconditionally truncate to the last `BUFFER_MAX_SIZE` bytes when over
the cap.  Returns (new state, whether buffer non-empty, log lines).  The
source body contains no logging call, so the log output is always `[]`. -/
def add_audio (ap : AudioProcessor) (data : List Nat) : AudioProcessor × Bool × List String :=
  let ap1 := if data.isEmpty then ap
             else { ap with audio_buffer := ap.audio_buffer ++ data, has_audio := true }
  let ap2 := if BUFFER_MAX_SIZE < ap1.audio_buffer.length then
               { ap1 with audio_buffer := takeLast BUFFER_MAX_SIZE ap1.audio_buffer }
             else ap1
  (ap2, decide (0 < ap2.audio_buffer.length), [])

/-- `AudioProcessor.clear_buffer`: return the buffered bytes and empty the buffer. -/
def clear_buffer (ap : AudioProcessor) : List Nat × AudioProcessor :=
  (ap.audio_buffer, { ap with audio_buffer := [] })

/-- Text fragments queued by the stream reader (`text_queue` items;
the timestamp field is not modelled). -/
@[ext] structure TextData where
  role : Option String
  text : String
deriving DecidableEq

/-- Internal control events put on `event_queue` by `_process_responses`. -/
inductive NEvent where
  | barge_in
  | content_end
  | completion
deriving DecidableEq

/-- Events emitted on the bidirectional input stream (outbound to the
model).  Correlation identifiers are `Option Nat` because the Python code
sends whatever `self.prompt_name` / content name currently holds, which
may be `None`. -/
inductive OutEvent where
  | sessionStart
  | promptStart (p : Option Nat)
  | contentStartText (p c : Option Nat)
  | textInput (p c : Option Nat) (content : String)
  | contentStartAudio (p c : Option Nat)
  | audioInput (p c : Option Nat) (payload : List Nat)
  | contentEnd (p c : Option Nat)
  | promptEnd (p : Option Nat)
  | sessionEnd
deriving DecidableEq

/-- Events received from the bidirectional stream, as classified by
`_process_responses`.  `contentStart` carries the optional `role` field and
(optionally) the parsed `additionalModelFields.generationStage`; `other`
stands for unrecognized events, which are ignored. -/
inductive InEvent where
  | contentStart (role : Option String) (fields : Option (Option String))
  | textOutput (content : String)
  | audioOutput (payload : List Nat)
  | contentEnd
  | completionEnd
  | other
deriving DecidableEq

/-- The interruption marker string checked by `_process_responses`. -/
def bargeInMarker : String := "\x7b \"interrupted\" : true \x7d"

/-- Does the character list start with the pattern? -/
def strStartsWithL : List Char → List Char → Bool
  | _, [] => true
  | [], _ :: _ => false
  | c :: cs, p :: ps => c == p && strStartsWithL cs ps

/-- Does the character list contain the pattern as a contiguous run? -/
def strContainsL : List Char → List Char → Bool
  | [], pat => pat.isEmpty
  | c :: cs, pat => strStartsWithL (c :: cs) pat || strContainsL cs pat

/-- Python substring containment `pat in s`. -/
def strContains (s pat : String) : Bool := strContainsL s.toList pat.toList

/-- Python `s.startswith(pre)`. -/
def pyStartsWith (s pre : String) : Bool := strStartsWithL s.toList pre.toList

/-- `NovaSonicOfficialClient` state (`nova_sonic_service.py`).  The three
asyncio queues are modelled as FIFO lists (front = head).  `fresh`
determinizes `uuid.uuid4()`. -/
@[ext] structure NovaClient where
  is_active : Bool
  prompt_name : Option Nat
  content_name : Option Nat
  audio_content_name : Option Nat
  session_id : Option Nat
  content_open : Bool
  prompt_starts : Nat
  prompt_ends : Nat
  content_starts : Nat
  content_ends : Nat
  audio_queue : List (List Nat)
  text_queue : List TextData
  event_queue : List NEvent
  role : Option String
  display_assistant_text : Bool
  fresh : Nat
deriving DecidableEq

def initClient : NovaClient :=
  { is_active := false, prompt_name := none, content_name := none,
    audio_content_name := none, session_id := none, content_open := false,
    prompt_starts := 0, prompt_ends := 0, content_starts := 0, content_ends := 0,
    audio_queue := [], text_queue := [], event_queue := [],
    role := none, display_assistant_text := false, fresh := 0 }

/-- System prompt sent during `start_session`. -/
def systemPrompt : String :=
  "You are an educational AI assistant helping students learn. Respond naturally and helpfully to their questions. Keep responses concise and clear, generally two or three sentences."

/-- `start_session` (success path): generate fresh identifiers, open the
stream, emit the session-start / prompt-start events and the system
instruction turn, and increment `prompt_starts`.  The spawned background
reader task is modelled separately by `process_response_event`. -/
def start_session (st : NovaClient) : NovaClient × List OutEvent :=
  let sid := st.fresh
  let p := st.fresh + 1
  let c := st.fresh + 2
  let ac := st.fresh + 3
  ({ st with session_id := some sid, prompt_name := some p, content_name := some c,
             audio_content_name := some ac, is_active := true,
             prompt_starts := st.prompt_starts + 1, fresh := st.fresh + 4 },
   [OutEvent.sessionStart, OutEvent.promptStart (some p),
    OutEvent.contentStartText (some p) (some c),
    OutEvent.textInput (some p) (some c) systemPrompt,
    OutEvent.contentEnd (some p) (some c)])

/-- `end_audio_input` (the close-turn operation): with an active
prompt/content, emit content-end then prompt-end, bump the end counters,
warn (never raise) on counter mismatch, clear the content identifier and
mark content closed.  Otherwise a no-op with a warning. -/
def end_audio_input (st : NovaClient) : NovaClient × List OutEvent × List String :=
  match st.prompt_name, st.audio_content_name with
  | some p, some c =>
    let st1 := { st with content_ends := st.content_ends + 1,
                         prompt_ends := st.prompt_ends + 1 }
    let w1 := if st1.content_starts ≠ st1.content_ends then
                ["Unbalanced content starts/ends"] else []
    let w2 := if st1.prompt_starts ≠ st1.prompt_ends then
                ["Unbalanced prompt starts/ends"] else []
    ({ st1 with audio_content_name := none, content_open := false },
     [OutEvent.contentEnd (some p) (some c), OutEvent.promptEnd (some p)],
     w1 ++ w2)
  | _, _ => (st, [], ["No active prompt/content to close"])

/-- `start_audio_input` (the open-turn operation): if content is already
open, first force-close it with a warning; then generate a fresh content
identifier, emit the audio content-start event, mark content open and bump
`content_starts`. -/
def start_audio_input (st : NovaClient) : NovaClient × List OutEvent × List String :=
  let pre := if st.content_open then
               let r := end_audio_input st
               (r.1, r.2.1, ["Content already open, closing previous"] ++ r.2.2)
             else (st, [], [])
  let st0 := pre.1
  let c := st0.fresh
  ({ st0 with audio_content_name := some c, fresh := st0.fresh + 1,
              content_open := true, content_starts := st0.content_starts + 1 },
   pre.2.1 ++ [OutEvent.contentStartAudio st0.prompt_name (some c)],
   pre.2.2)

/-- `send_audio_chunk`: silently ignored when the stream is inactive;
rejected with a warning when no content is open; otherwise emits exactly
one audio-input event carrying the bytes.  Never changes the state. -/
def send_audio_chunk (st : NovaClient) (audio_bytes : List Nat) :
    NovaClient × List OutEvent × List String :=
  if !st.is_active then (st, [], [])
  else if !st.content_open || st.audio_content_name.isNone then
    (st, [], ["Rejecting audio chunk - no open content"])
  else
    (st, [OutEvent.audioInput st.prompt_name st.audio_content_name audio_bytes], [])

/-- One step of the background stream reader `_process_responses`:
classify one incoming event and update role/display state and the three
delivery queues.  Note that a fragment containing the interruption marker
is queued on `event_queue` as barge-in AND still queued on `text_queue`. -/
def process_response_event (st : NovaClient) (e : InEvent) : NovaClient :=
  match e with
  | InEvent.contentStart role fields =>
    let st1 := { st with role := some (role.getD "ASSISTANT") }
    match fields with
    | some gs => { st1 with display_assistant_text := gs == some "SPECULATIVE" }
    | none => st1
  | InEvent.textOutput content =>
    let st1 := if strContains content bargeInMarker then
                 { st with event_queue := st.event_queue ++ [NEvent.barge_in] }
               else st
    { st1 with text_queue := st1.text_queue ++ [{ role := st1.role, text := content }] }
  | InEvent.audioOutput payload =>
    if payload.isEmpty then st
    else { st with audio_queue := st.audio_queue ++ [payload] }
  | InEvent.contentEnd => { st with event_queue := st.event_queue ++ [NEvent.content_end] }
  | InEvent.completionEnd => { st with event_queue := st.event_queue ++ [NEvent.completion] }
  | InEvent.other => st

/-- Result dictionary of `process_audio_simple`.  On success the dict has
no `error` key and `metadata.mode = "bidirectional_stream"`; on failure it
has no `metadata` key. -/
@[ext] structure SimpleResult where
  success : Bool
  audio : List Nat
  text : String
  error : Option String
  metadata_mode : Option String
deriving DecidableEq

/-- Fold step for the chunk-sending loop in `process_audio_simple`. -/
def sendStep (acc : NovaClient × List OutEvent) (ch : List Nat) : NovaClient × List OutEvent :=
  let r := send_audio_chunk acc.1 ch
  (r.1, acc.2 ++ r.2.1)

/-- `process_audio_simple` (one full turn): ensure the session is started,
clear the audio/text delivery queues, open a turn, send the audio in 4 KiB
chunks, close the turn, then drain the turn result.  `responses` is the
list of stream events observed by the background reader during the turn
(the drain loop polls the queues until completion or a 15 s timeout; that
real-time cutoff is modelled by `responses` being exactly the events that
arrived in time).  Text fragments are dequeued one by one and only
ASSISTANT-role fragments are kept. -/
def process_audio_simple (st : NovaClient) (audio_data : List Nat)
    (responses : List InEvent) : NovaClient × List OutEvent × SimpleResult :=
  let ensure := if st.is_active then (st, ([] : List OutEvent)) else start_session st
  let stA := ensure.1
  let stB : NovaClient := { stA with audio_queue := [], text_queue := [] }
  let r1 := start_audio_input stB
  let sent := (chunkList chunk_size audio_data).foldl sendStep (r1.1, [])
  let r2 := end_audio_input sent.1
  let stF := responses.foldl process_response_event r2.1
  let audio_chunks := stF.audio_queue
  let text_parts := (stF.text_queue.filter (fun t => t.role == some "ASSISTANT")).map (fun t => t.text)
  let stG : NovaClient := { stF with audio_queue := [], text_queue := [] }
  let combined_audio := audio_chunks.flatten
  let combined_text := String.intercalate " " text_parts
  let result : SimpleResult :=
    if !combined_audio.isEmpty || combined_text ≠ "" then
      { success := true, audio := combined_audio, text := combined_text,
        error := none, metadata_mode := some "bidirectional_stream" }
    else
      { success := false, audio := [], text := "",
        error := some "No response received from BIDIRECTIONAL stream",
        metadata_mode := none }
  (stG, ensure.2 ++ r1.2.1 ++ sent.2 ++ r2.2.1, result)

/-- `end_session`: no-op when already inactive; otherwise emit prompt-end
then session-end, close the stream, cancel the reader task (the latter two
are task-level effects, not stream events) and mark inactive. -/
def end_session (st : NovaClient) : NovaClient × List OutEvent :=
  if !st.is_active then (st, [])
  else ({ st with is_active := false },
        [OutEvent.promptEnd st.prompt_name, OutEvent.sessionEnd])

/-- `NovaSession` from `main.py` (timestamps and the watchdog task handle
are real-time bookkeeping; the watchdog is modelled by
`inactivity_watchdog_trigger` below). -/
@[ext] structure NovaSession where
  audio_processor : AudioProcessor
  nova : NovaClient
  is_listening : Bool
deriving DecidableEq

def initSession : NovaSession :=
  { audio_processor := initAudioProcessor, nova := initClient, is_listening := false }

/-- `NovaSession.start_listening` (the watchdog task spawn is not modelled). -/
def start_listening (s : NovaSession) : NovaSession := { s with is_listening := true }

/-- `NovaSession.stop_listening` (cancels the watchdog task). -/
def stop_listening (s : NovaSession) : NovaSession := { s with is_listening := false }

/-- One triggered iteration of `NovaSession.inactivity_watchdog`, i.e. the
body executed when `elapsed_ms > INACTIVITY_THRESHOLD_MS` while
`is_listening`: close the current turn on the adapter (only when it is
active) and stop listening (the loop then breaks, which cancels the
watchdog).  Nothing else happens: the audio buffer is not touched and no
audio is sent. -/
def inactivity_watchdog_trigger (s : NovaSession) : NovaSession × List OutEvent × List String :=
  let r := if s.nova.is_active then end_audio_input s.nova else (s.nova, [], [])
  ({ s with nova := r.1, is_listening := false }, r.2.1, r.2.2)

/-- Result of `NovaSession.process_with_nova`. -/
@[ext] structure NovaResult where
  success : Bool
  audio : List Nat
  text : String
  error : Option String
deriving DecidableEq

/-- `NovaSession.process_with_nova`: stop listening, convert to PCM (the
conversion is the identity in the source), run `process_audio_simple`, and
check the result metadata.  A result whose `metadata.mode` is not
`"bidirectional_stream"` (in particular every failure result, which has no
metadata) makes the method raise `RuntimeError`, which its own
`except` clause converts into a failure result with that message. -/
def process_with_nova (s : NovaSession) (audio_data : List Nat)
    (responses : List InEvent) : NovaSession × List OutEvent × NovaResult :=
  let s1 := stop_listening s
  let r := process_audio_simple s1.nova audio_data responses
  let s2 := { s1 with nova := r.1 }
  if r.2.2.metadata_mode ≠ some "bidirectional_stream" then
    (s2, r.2.1, { success := false, audio := [], text := "",
                  error := some "Must use bidirectional_stream mode" })
  else if r.2.2.success then
    (s2, r.2.1, { success := true, audio := r.2.2.audio, text := r.2.2.text, error := none })
  else
    (s2, r.2.1, { success := false, audio := [], text := "",
                  error := some (r.2.2.error.getD "Unknown error") })

/-- Outbound WebSocket messages sent by the server. -/
inductive ServerMsg where
  | connection_established
  | pong
  | session_initialized (sessionId : String)
  | audio_output (audio : List Nat)
  | transcript (text : String)
  | inference_complete
  | session_ended (sessionId : String)
  | error (msg : String)
  | heartbeat
deriving DecidableEq

/-- Handling of one non-empty audio chunk inside the `audio_input` branch
of `websocket_endpoint`: add to the buffer, refresh the activity time (not
modelled) and start listening if not already. -/
def handle_audio_chunk (s : NovaSession) (data : List Nat) : NovaSession :=
  if data.isEmpty then s
  else
    let s1 := { s with audio_processor := (add_audio s.audio_processor data).1 }
    if s1.is_listening then s1 else start_listening s1

/-- Handling of `endOfUtterance = true` inside the `audio_input` branch of
`websocket_endpoint`: take and clear the accumulated buffer; if non-empty,
process it with Nova and reply with `audio_output` (when audio non-empty),
`transcript` (when text non-empty) and `inference_complete` on success, or
a single `error` message on failure; if the buffer was empty, log only.
Returns (new session, outbound client messages, outbound stream events). -/
def handle_end_of_utterance (s : NovaSession) (responses : List InEvent) :
    NovaSession × List ServerMsg × List OutEvent :=
  let cb := clear_buffer s.audio_processor
  let s1 := { s with audio_processor := cb.2 }
  if cb.1.isEmpty then (s1, [], [])
  else
    let r := process_with_nova s1 cb.1 responses
    if r.2.2.success then
      let m1 := if r.2.2.audio.isEmpty then [] else [ServerMsg.audio_output r.2.2.audio]
      let m2 := if r.2.2.text = "" then [] else [ServerMsg.transcript r.2.2.text]
      (r.1, m1 ++ m2 ++ [ServerMsg.inference_complete], r.2.1)
    else
      (r.1, [ServerMsg.error (r.2.2.error.getD "Processing failed")], r.2.1)

/-- One full `audio_input` message: feed the chunk (when non-empty), then
finalize the turn when the explicit end-of-utterance flag is set. -/
def handle_audio_input (s : NovaSession) (data : List Nat) (endOfUtterance : Bool)
    (responses : List InEvent) : NovaSession × List ServerMsg × List OutEvent :=
  let s1 := handle_audio_chunk s data
  if endOfUtterance then handle_end_of_utterance s1 responses else (s1, [], [])

/-- User info returned by the identity collaborator. -/
@[ext] structure UserInfo where
  user_id : String
  email : String
deriving DecidableEq

def testUser : UserInfo := { user_id := "test_user", email := "test@example.com" }

/-- `verify_auth_token`.  `validator` is the outcome of the external
Cognito validator (`none` covers both a failed validation and a raised
exception, whose fallbacks coincide in the source): an empty token is
rejected immediately; a validated token is accepted; otherwise the
development fallback accepts `mock-token-for-testing` and any token
starting with `test-`. -/
def verify_auth_token (token : String) (validator : Option UserInfo) : Option UserInfo :=
  if token = "" then none
  else
    match validator with
    | some u => some u
    | none =>
      if token = "mock-token-for-testing" || pyStartsWith token "test-" then some testUser
      else none

/-- The `initialize_session` branch of `websocket_endpoint`: verify the
token; on failure reply a single `error` and create nothing; on success
create a fresh session and reply `session_initialized` (the session id is
time-based in the source; modelled as a fixed string). -/
def handle_initialize_session (token : String) (validator : Option UserInfo) :
    Option NovaSession × List ServerMsg :=
  match verify_auth_token token validator with
  | none => (none, [ServerMsg.error "Authentication failed"])
  | some _ => (some initSession, [ServerMsg.session_initialized "session"])

/-! ### Derived observations used in the theorems -/

/-- The audio bytes forwarded to the model in a list of stream events:
the in-order concatenation of all audio-input payloads. -/
def forwardedAudio (evs : List OutEvent) : List Nat :=
  (evs.filterMap fun e => match e with
    | OutEvent.audioInput _ _ b => some b
    | _ => none).flatten

/-- Number of turn-open (audio content-start) events. -/
def countTurnOpens (evs : List OutEvent) : Nat :=
  evs.countP fun e => match e with
    | OutEvent.contentStartAudio _ _ => true
    | _ => false

/-- Number of prompt-end events (each `end_audio_input` emits exactly one). -/
def countPromptEnds (evs : List OutEvent) : Nat :=
  evs.countP fun e => match e with
    | OutEvent.promptEnd _ => true
    | _ => false

/-- Audio payloads the background reader queues for a list of incoming
stream events (empty payloads are skipped, as in the source). -/
def collectAudio : List InEvent → List (List Nat)
  | [] => []
  | InEvent.audioOutput b :: es =>
    if b.isEmpty then collectAudio es else b :: collectAudio es
  | _ :: es => collectAudio es

/-- The speaking role after the background reader has processed a list of
incoming events, starting from role `r`. -/
def roleAfter (r : Option String) : List InEvent → Option String
  | [] => r
  | InEvent.contentStart ro _ :: es => roleAfter (some (ro.getD "ASSISTANT")) es
  | _ :: es => roleAfter r es

/-- The `display_assistant_text` flag after processing a list of events. -/
def displayAfter (d : Bool) : List InEvent → Bool
  | [] => d
  | InEvent.contentStart _ fields :: es =>
    displayAfter (match fields with
                  | some gs => gs == some "SPECULATIVE"
                  | none => d) es
  | _ :: es => displayAfter d es

/-- Text fragments the background reader queues (role-tagged, in order). -/
def collectTexts (r : Option String) : List InEvent → List TextData
  | [] => []
  | InEvent.contentStart ro _ :: es => collectTexts (some (ro.getD "ASSISTANT")) es
  | InEvent.textOutput t :: es => { role := r, text := t } :: collectTexts r es
  | _ :: es => collectTexts r es

/-- Control events the background reader queues. -/
def collectControl : List InEvent → List NEvent
  | [] => []
  | InEvent.textOutput t :: es =>
    (if strContains t bargeInMarker then [NEvent.barge_in] else []) ++ collectControl es
  | InEvent.contentEnd :: es => NEvent.content_end :: collectControl es
  | InEvent.completionEnd :: es => NEvent.completion :: collectControl es
  | _ :: es => collectControl es

/-- The ASSISTANT-role text fragments among the queued fragments. -/
def assistantTexts (r : Option String) (es : List InEvent) : List String :=
  ((collectTexts r es).filter (fun t => t.role == some "ASSISTANT")).map (fun t => t.text)

/-- The result `process_audio_simple` builds from the drained audio and text. -/
def mkDrainResult (a : List Nat) (t : String) : SimpleResult :=
  if !a.isEmpty || t ≠ "" then
    { success := true, audio := a, text := t,
      error := none, metadata_mode := some "bidirectional_stream" }
  else
    { success := false, audio := [], text := "",
      error := some "No response received from BIDIRECTIONAL stream",
      metadata_mode := none }

/-! ### Basic lemmas about the building blocks -/

theorem chunkListGo_flatten {α : Type} (n : Nat) (hn : n ≠ 0) :
    ∀ (fuel : Nat) (l : List α), l.length ≤ fuel → (chunkListGo fuel n l).flatten = l := by
  intro fuel
  induction fuel with
  | zero =>
    intro l hl
    have hnil : l = [] := List.eq_nil_of_length_eq_zero (Nat.le_zero.mp hl)
    subst hnil
    rfl
  | succ k ih =>
    intro l hl
    match l with
    | [] => rfl
    | x :: xs =>
      show ((x :: xs).take n :: chunkListGo k n ((x :: xs).drop n)).flatten = x :: xs
      rw [List.flatten_cons, ih ((x :: xs).drop n) ?_, List.take_append_drop]
      have h1 : (1 : Nat) ≤ n := Nat.pos_of_ne_zero hn
      simp only [List.length_drop, List.length_cons] at *
      omega

theorem chunkList_flatten {α : Type} (n : Nat) (hn : n ≠ 0) (l : List α) :
    (chunkList n l).flatten = l := by
  unfold chunkList
  rw [if_neg hn]
  exact chunkListGo_flatten n hn l.length l le_rfl

theorem takeLast_of_le {α : Type} {n : Nat} {l : List α} (h : l.length ≤ n) :
    takeLast n l = l := by
  simp [takeLast, Nat.sub_eq_zero_of_le h]

theorem length_takeLast {α : Type} (n : Nat) (l : List α) :
    (takeLast n l).length = min n l.length := by
  simp only [takeLast, List.length_drop]
  omega

theorem takeLast_append_left {α : Type} (n : Nat) (l d : List α) :
    takeLast n (takeLast n l ++ d) = takeLast n (l ++ d) := by
  unfold takeLast
  rw [← List.drop_append_of_le_length (Nat.sub_le _ _), List.drop_drop]
  congr 1
  simp only [List.length_append, List.length_drop]
  omega

/-- `add_audio` always leaves the last `BUFFER_MAX_SIZE` bytes of the
extended buffer (which is the whole extended buffer when under the cap). -/
theorem add_audio_buffer (ap : AudioProcessor) (d : List Nat) :
    (add_audio ap d).1.audio_buffer = takeLast BUFFER_MAX_SIZE (ap.audio_buffer ++ d) := by
  unfold add_audio
  by_cases hd : d.isEmpty
  · have hnil : d = [] := List.isEmpty_iff.mp hd
    subst hnil
    by_cases hlen : BUFFER_MAX_SIZE < ap.audio_buffer.length
    · simp [hlen]
    · simp [hlen, takeLast_of_le (Nat.le_of_not_lt hlen)]
  · by_cases hlen : BUFFER_MAX_SIZE < (ap.audio_buffer ++ d).length
    · rw [List.length_append] at hlen
      simp [hd, hlen]
    · have hle := takeLast_of_le (l := ap.audio_buffer ++ d) (Nat.le_of_not_lt hlen)
      rw [List.length_append] at hlen
      simp [hd, hlen, hle]

/-- `add_audio` has `has_audio = true` afterwards iff it was already true
or data arrived; irrelevant to most claims but records the shape. -/
theorem add_audio_logs (ap : AudioProcessor) (d : List Nat) :
    (add_audio ap d).2.2 = [] := rfl

theorem handle_audio_chunk_nova (s : NovaSession) (d : List Nat) :
    (handle_audio_chunk s d).nova = s.nova := by
  unfold handle_audio_chunk start_listening
  split
  · rfl
  · dsimp only
    split <;> rfl

theorem foldl_handle_audio_chunk_nova (chunks : List (List Nat)) (s : NovaSession) :
    (chunks.foldl handle_audio_chunk s).nova = s.nova := by
  induction chunks generalizing s with
  | nil => rfl
  | cons c cs ih => rw [List.foldl_cons, ih, handle_audio_chunk_nova]

theorem handle_audio_chunk_buffer (s : NovaSession) (d : List Nat)
    (h : s.audio_processor.audio_buffer.length ≤ BUFFER_MAX_SIZE) :
    (handle_audio_chunk s d).audio_processor.audio_buffer =
      takeLast BUFFER_MAX_SIZE (s.audio_processor.audio_buffer ++ d) := by
  unfold handle_audio_chunk start_listening
  by_cases hd : d.isEmpty
  · have hnil : d = [] := List.isEmpty_iff.mp hd
    subst hnil
    simp [takeLast_of_le h]
  · simp only [hd, Bool.false_eq_true, if_false]
    split <;> simp [add_audio_buffer]

theorem foldl_handle_audio_chunk_buffer (chunks : List (List Nat)) (s : NovaSession)
    (h : s.audio_processor.audio_buffer.length ≤ BUFFER_MAX_SIZE) :
    (chunks.foldl handle_audio_chunk s).audio_processor.audio_buffer =
      takeLast BUFFER_MAX_SIZE (s.audio_processor.audio_buffer ++ chunks.flatten) := by
  induction chunks generalizing s with
  | nil => simp [takeLast_of_le h]
  | cons c cs ih =>
    rw [List.foldl_cons, ih _ (by
      rw [handle_audio_chunk_buffer s c h, length_takeLast]
      omega)]
    rw [handle_audio_chunk_buffer s c h, takeLast_append_left, List.flatten_cons,
        List.append_assoc]

/-! ### Behaviour of the stream-reader fold and the adapter operations -/

/-- Folding `process_response_event` appends to the delivery queues
exactly what `collectAudio` / `collectTexts` / `collectControl` describe
and updates the role/display tracking; nothing else changes. -/
theorem foldl_process_response_event (es : List InEvent) (st : NovaClient) :
    es.foldl process_response_event st =
    { st with audio_queue := st.audio_queue ++ collectAudio es,
              text_queue := st.text_queue ++ collectTexts st.role es,
              event_queue := st.event_queue ++ collectControl es,
              role := roleAfter st.role es,
              display_assistant_text := displayAfter st.display_assistant_text es } := by
  induction es generalizing st with
  | nil =>
    simp only [List.foldl_nil, collectAudio, collectTexts, collectControl, roleAfter,
               displayAfter, List.append_nil]
  | cons e es ih =>
    rw [List.foldl_cons, ih]
    cases e with
    | contentStart ro fields =>
      cases fields <;>
        simp [process_response_event, collectAudio, collectTexts, collectControl,
              roleAfter, displayAfter]
    | textOutput t =>
      by_cases hb : strContains t bargeInMarker <;>
        simp [process_response_event, collectAudio, collectTexts, collectControl,
              roleAfter, displayAfter, hb]
    | audioOutput b =>
      by_cases hb : b.isEmpty <;>
        simp [process_response_event, collectAudio, collectTexts, collectControl,
              roleAfter, displayAfter, hb]
    | contentEnd =>
      simp [process_response_event, collectAudio, collectTexts, collectControl,
            roleAfter, displayAfter]
    | completionEnd =>
      simp [process_response_event, collectAudio, collectTexts, collectControl,
            roleAfter, displayAfter]
    | other =>
      simp [process_response_event, collectAudio, collectTexts, collectControl,
            roleAfter, displayAfter]

/-- `send_audio_chunk` with an active stream and open content emits exactly
one audio-input event and leaves the state unchanged. -/
theorem send_audio_chunk_open (st : NovaClient) (b : List Nat)
    (h1 : st.is_active = true) (h2 : st.content_open = true)
    (h3 : st.audio_content_name.isSome) :
    send_audio_chunk st b =
      (st, [OutEvent.audioInput st.prompt_name st.audio_content_name b], []) := by
  unfold send_audio_chunk
  simp [h1, h2, Option.isNone_iff_eq_none, Option.isSome_iff_ne_none.mp h3]

/-- The chunk-sending fold of `process_audio_simple` for an active stream
with open content: the state is untouched and one audio-input event is
appended per chunk, in order. -/
theorem foldl_sendStep (st : NovaClient)
    (h1 : st.is_active = true) (h2 : st.content_open = true)
    (h3 : st.audio_content_name.isSome) (chs : List (List Nat)) (acc : List OutEvent) :
    chs.foldl sendStep (st, acc) =
      (st, acc ++ chs.map (fun ch => OutEvent.audioInput st.prompt_name st.audio_content_name ch)) := by
  induction chs generalizing acc with
  | nil => simp
  | cons c cs ih =>
    rw [List.foldl_cons]
    have hstep : sendStep (st, acc) c =
        (st, acc ++ [OutEvent.audioInput st.prompt_name st.audio_content_name c]) := by
      unfold sendStep
      rw [send_audio_chunk_open st c h1 h2 h3]
    rw [hstep, ih]
    simp

/-- `start_audio_input` when no content is open: generate a fresh content
identifier and emit one audio content-start event. -/
theorem start_audio_input_not_open (st : NovaClient) (h : st.content_open = false) :
    start_audio_input st =
    ({ st with audio_content_name := some st.fresh, fresh := st.fresh + 1,
               content_open := true, content_starts := st.content_starts + 1 },
     [OutEvent.contentStartAudio st.prompt_name (some st.fresh)], []) := by
  unfold start_audio_input
  simp [h]

/-- `end_audio_input` with an active prompt and content: content-end then
prompt-end, end counters bumped, mismatch warnings, content cleared. -/
theorem end_audio_input_spec (st : NovaClient) (p c : Nat)
    (hp : st.prompt_name = some p) (hc : st.audio_content_name = some c) :
    end_audio_input st =
    ({ st with content_ends := st.content_ends + 1, prompt_ends := st.prompt_ends + 1,
               audio_content_name := none, content_open := false },
     [OutEvent.contentEnd (some p) (some c), OutEvent.promptEnd (some p)],
     (if st.content_starts ≠ st.content_ends + 1 then ["Unbalanced content starts/ends"] else []) ++
     (if st.prompt_starts ≠ st.prompt_ends + 1 then ["Unbalanced prompt starts/ends"] else [])) := by
  unfold end_audio_input
  rw [hp, hc]

/-- `end_audio_input` with no active prompt/content is a no-op with a warning. -/
theorem end_audio_input_noop (st : NovaClient)
    (h : st.prompt_name = none ∨ st.audio_content_name = none) :
    end_audio_input st = (st, [], ["No active prompt/content to close"]) := by
  unfold end_audio_input
  rcases h with h | h
  · rw [h]
  · rw [h]
    cases st.prompt_name <;> rfl

/-- One full turn of `process_audio_simple` over an already-active session
with no open content: the emitted stream events are exactly one audio
content-start, one audio-input event per 4 KiB chunk of the payload (in
order), then content-end and prompt-end; the state gets its content
counters bumped in lockstep, content closed, queues drained; and the
result is built from exactly the audio/text the reader queued during the
turn. -/
theorem process_audio_simple_active (st : NovaClient) (b : List Nat) (rs : List InEvent)
    (hact : st.is_active = true) (hopen : st.content_open = false) (p : Nat)
    (hp : st.prompt_name = some p) :
    process_audio_simple st b rs =
    ({ st with audio_content_name := none, content_open := false,
               content_starts := st.content_starts + 1,
               content_ends := st.content_ends + 1,
               prompt_ends := st.prompt_ends + 1,
               fresh := st.fresh + 1,
               audio_queue := [], text_queue := [],
               event_queue := st.event_queue ++ collectControl rs,
               role := roleAfter st.role rs,
               display_assistant_text := displayAfter st.display_assistant_text rs },
     OutEvent.contentStartAudio (some p) (some st.fresh) ::
       ((chunkList chunk_size b).map (fun ch => OutEvent.audioInput (some p) (some st.fresh) ch) ++
        [OutEvent.contentEnd (some p) (some st.fresh), OutEvent.promptEnd (some p)]),
     mkDrainResult (collectAudio rs).flatten
       (String.intercalate " " (assistantTexts st.role rs))) := by
  obtain ⟨act, pn, cn, acn, sid, co, ps, pe, cs, ce, aq, tq, evq, rl, da, fr⟩ := st
  simp only at hact hopen hp
  subst hact hopen hp
  simp only [process_audio_simple, if_true]
  rw [start_audio_input_not_open _ rfl]
  dsimp only
  rw [foldl_sendStep _ rfl rfl (by simp)]
  dsimp only
  rw [end_audio_input_spec _ p fr rfl rfl]
  dsimp only
  rw [foldl_process_response_event]
  dsimp only
  simp only [List.nil_append, List.singleton_append, List.cons_append, List.append_assoc,
             mkDrainResult, assistantTexts]

theorem send_audio_chunk_state (st : NovaClient) (b : List Nat) :
    (send_audio_chunk st b).1 = st := by
  unfold send_audio_chunk
  split
  · rfl
  · split <;> rfl

theorem foldl_sendStep_state (chs : List (List Nat)) :
    ∀ pr : NovaClient × List OutEvent, (chs.foldl sendStep pr).1 = pr.1 := by
  induction chs with
  | nil => intro pr; rfl
  | cons c cs ih =>
    intro pr
    rw [List.foldl_cons, ih]
    show (send_audio_chunk pr.1 c).1 = pr.1
    exact send_audio_chunk_state pr.1 c

theorem end_audio_input_role (st : NovaClient) :
    (end_audio_input st).1.role = st.role := by
  unfold end_audio_input
  rcases hp : st.prompt_name with _ | p <;> rcases hc : st.audio_content_name with _ | c <;> rfl

theorem end_audio_input_aq (st : NovaClient) :
    (end_audio_input st).1.audio_queue = st.audio_queue := by
  unfold end_audio_input
  rcases hp : st.prompt_name with _ | p <;> rcases hc : st.audio_content_name with _ | c <;> rfl

theorem end_audio_input_tq (st : NovaClient) :
    (end_audio_input st).1.text_queue = st.text_queue := by
  unfold end_audio_input
  rcases hp : st.prompt_name with _ | p <;> rcases hc : st.audio_content_name with _ | c <;> rfl

theorem start_audio_input_role (st : NovaClient) :
    (start_audio_input st).1.role = st.role := by
  unfold start_audio_input
  by_cases h : st.content_open <;> simp [h, end_audio_input_role]

theorem start_audio_input_aq (st : NovaClient) :
    (start_audio_input st).1.audio_queue = st.audio_queue := by
  unfold start_audio_input
  by_cases h : st.content_open <;> simp [h, end_audio_input_aq]

theorem start_audio_input_tq (st : NovaClient) :
    (start_audio_input st).1.text_queue = st.text_queue := by
  unfold start_audio_input
  by_cases h : st.content_open <;> simp [h, end_audio_input_tq]

/-- The drained turn result of `process_audio_simple` depends only on the
stream responses observed during the turn (and the role tracked at its
start): the audio is the concatenation of the queued audio payloads and
the text the space-separated join of the ASSISTANT-role fragments.  In
particular the queues the state held before the turn never contribute. -/
theorem process_audio_simple_result (st : NovaClient) (b : List Nat) (rs : List InEvent) :
    (process_audio_simple st b rs).2.2 =
      mkDrainResult (collectAudio rs).flatten
        (String.intercalate " " (assistantTexts st.role rs)) := by
  simp only [process_audio_simple]
  rw [foldl_process_response_event]
  have hensure :
      (if st.is_active then (st, ([] : List OutEvent)) else start_session st).1.role = st.role := by
    split
    · rfl
    · rfl
  dsimp only
  rw [end_audio_input_aq, end_audio_input_tq, end_audio_input_role,
      foldl_sendStep_state, start_audio_input_aq, start_audio_input_tq, start_audio_input_role]
  dsimp only
  rw [hensure]
  simp only [List.nil_append, mkDrainResult, assistantTexts]

/-- When the session is not yet active, `process_audio_simple` first runs
`start_session` and then proceeds exactly as in the active case. -/
theorem process_audio_simple_inactive (st : NovaClient) (b : List Nat) (rs : List InEvent)
    (h : st.is_active = false) :
    process_audio_simple st b rs =
    ((process_audio_simple (start_session st).1 b rs).1,
     (start_session st).2 ++ (process_audio_simple (start_session st).1 b rs).2.1,
     (process_audio_simple (start_session st).1 b rs).2.2) := by
  obtain ⟨act, pn, cn, acn, sid, co, ps, pe, cs, ce, aq, tq, evq, rl, da, fr⟩ := st
  simp only at h
  subst h
  simp only [process_audio_simple, start_session]
  simp [List.append_assoc]

theorem forwardedAudio_turn (p c : Option Nat) (chs : List (List Nat)) :
    forwardedAudio (OutEvent.contentStartAudio p c ::
      (chs.map (fun ch => OutEvent.audioInput p c ch) ++
       [OutEvent.contentEnd p c, OutEvent.promptEnd p])) = chs.flatten := by
  unfold forwardedAudio
  simp only [List.filterMap_cons, List.filterMap_append, List.filterMap_map]
  have : (List.filterMap ((fun e => match e with
      | OutEvent.audioInput _ _ b => some b
      | _ => none) ∘ fun ch => OutEvent.audioInput p c ch) chs) = chs := by
    induction chs with
    | nil => rfl
    | cons x xs ih =>
      show x :: List.filterMap _ xs = x :: xs
      rw [ih]
  rw [this]
  simp

theorem countTurnOpens_turn (p c : Option Nat) (chs : List (List Nat)) :
    countTurnOpens (OutEvent.contentStartAudio p c ::
      (chs.map (fun ch => OutEvent.audioInput p c ch) ++
       [OutEvent.contentEnd p c, OutEvent.promptEnd p])) = 1 := by
  unfold countTurnOpens
  simp only [List.countP_cons, List.countP_append, List.countP_map]
  have : List.countP ((fun e => match e with
      | OutEvent.contentStartAudio _ _ => true
      | _ => false) ∘ fun ch => OutEvent.audioInput p c ch) chs = 0 := by
    induction chs with
    | nil => rfl
    | cons x xs ih =>
      simp only [List.countP_cons]
      show List.countP _ xs + 0 = 0
      rw [ih]
  rw [this]
  rfl

theorem countPromptEnds_turn (p c : Option Nat) (chs : List (List Nat)) :
    countPromptEnds (OutEvent.contentStartAudio p c ::
      (chs.map (fun ch => OutEvent.audioInput p c ch) ++
       [OutEvent.contentEnd p c, OutEvent.promptEnd p])) = 1 := by
  unfold countPromptEnds
  simp only [List.countP_cons, List.countP_append, List.countP_map]
  have : List.countP ((fun e => match e with
      | OutEvent.promptEnd _ => true
      | _ => false) ∘ fun ch => OutEvent.audioInput p c ch) chs = 0 := by
    induction chs with
    | nil => rfl
    | cons x xs ih =>
      simp only [List.countP_cons]
      show List.countP _ xs + 0 = 0
      rw [ih]
  rw [this]
  rfl

/-- With a non-empty accumulated buffer, `handle_end_of_utterance` sends
to the model exactly the events of the `process_audio_simple` turn over
the buffered bytes (whatever the drained result is). -/
theorem handle_end_of_utterance_events (s : NovaSession) (rs : List InEvent)
    (h : s.audio_processor.audio_buffer.isEmpty = false) :
    (handle_end_of_utterance s rs).2.2 =
      (process_audio_simple s.nova s.audio_processor.audio_buffer rs).2.1 := by
  unfold handle_end_of_utterance clear_buffer process_with_nova stop_listening
  dsimp only
  simp only [h, Bool.false_eq_true, if_false]
  split
  · rfl
  · split <;> rfl

theorem foldl_add_audio_buffer (datas : List (List Nat)) (ap : AudioProcessor)
    (h : ap.audio_buffer.length ≤ BUFFER_MAX_SIZE) :
    (datas.foldl (fun a d => (add_audio a d).1) ap).audio_buffer =
      takeLast BUFFER_MAX_SIZE (ap.audio_buffer ++ datas.flatten) := by
  induction datas generalizing ap with
  | nil => simp [takeLast_of_le h]
  | cons d ds ih =>
    rw [List.foldl_cons, ih _ (by rw [add_audio_buffer, length_takeLast]; omega),
        add_audio_buffer, takeLast_append_left, List.flatten_cons, List.append_assoc]

/-- Projections of the drained result: the audio is always the collected
concatenation and the text always the joined fragments (on the failure
branch both are empty anyway). -/
theorem mkDrainResult_audio_text (a : List Nat) (t : String) :
    (mkDrainResult a t).audio = a ∧ (mkDrainResult a t).text = t := by
  unfold mkDrainResult
  split
  · exact ⟨rfl, rfl⟩
  · next h =>
    simp only [Bool.or_eq_true, Bool.not_eq_true', ne_eq, decide_eq_true_eq, not_or,
               Bool.not_eq_false] at h
    obtain ⟨h1, h2⟩ := h
    have ha : a = [] := List.isEmpty_iff.mp h1
    have ht : t = "" := not_not.mp h2
    subst ha
    exact ⟨rfl, ht.symm⟩

/-- The invariant maintained across completed turns: content closed, the
content start/end counters equal, and an active session has a prompt id. -/
def balancedInv (st : NovaClient) : Prop :=
  st.content_open = false ∧ st.content_starts = st.content_ends ∧
  (st.is_active = true → st.prompt_name.isSome = true)

/-- The state after one completed turn (one `process_audio_simple` call). -/
def doTurn (st : NovaClient) (t : List Nat × List InEvent) : NovaClient :=
  (process_audio_simple st t.1 t.2).1

theorem doTurn_balanced (st : NovaClient) (t : List Nat × List InEvent)
    (h : balancedInv st) : balancedInv (doTurn st t) := by
  obtain ⟨hopen, hbal, hprompt⟩ := h
  by_cases hact : st.is_active = true
  · obtain ⟨p, hp⟩ := Option.isSome_iff_exists.mp (hprompt hact)
    unfold doTurn
    rw [process_audio_simple_active st t.1 t.2 hact hopen p hp]
    exact ⟨rfl, by simpa using hbal, fun _ => by simp [hp]⟩
  · have hact' : st.is_active = false := by
      cases hb : st.is_active
      · rfl
      · exact absurd hb hact
    unfold doTurn
    rw [process_audio_simple_inactive st t.1 t.2 hact']
    dsimp only
    rw [process_audio_simple_active (start_session st).1 t.1 t.2 (by simp [start_session])
        (by simpa [start_session] using hopen) (st.fresh + 1) (by simp [start_session])]
    refine ⟨rfl, ?_, fun _ => by simp [start_session]⟩
    simpa [start_session] using hbal

theorem foldl_doTurn_balanced (turns : List (List Nat × List InEvent)) :
    balancedInv (turns.foldl doTurn initClient) := by
  have base : balancedInv initClient := ⟨rfl, rfl, fun h => by simp [initClient] at h⟩
  have step : ∀ (st : NovaClient), balancedInv st →
      balancedInv (turns.foldl doTurn st) := by
    induction turns with
    | nil => intro st h; exact h
    | cons t ts ih => intro st h; exact ih _ (doTurn_balanced st t h)
  exact step initClient base

/-! ### Concrete fixtures -/

/-- An active client mid-session (as after `start_session`): prompt id 1,
audio content id 3, no open content, empty queues. -/
def cClient : NovaClient :=
  { initClient with is_active := true, prompt_name := some 1, content_name := some 2,
                    audio_content_name := some 3, session_id := some 0, fresh := 4 }

/-- `cClient` with the tracked speaking role set to ASSISTANT. -/
def cClientA : NovaClient := { cClient with role := some "ASSISTANT" }

/-- `cClient` with content open (mid-turn). -/
def cClientOpen : NovaClient := { cClient with content_open := true }

/-- A session holding `cClient` with an empty audio buffer. -/
def cSession : NovaSession :=
  { audio_processor := initAudioProcessor, nova := cClient, is_listening := false }

/-- A listening session with three buffered bytes. -/
def cSessionBuf : NovaSession :=
  { audio_processor := { audio_buffer := [1, 2, 3], has_audio := true },
    nova := cClient, is_listening := true }

/-- One byte more than the buffer cap. -/
def bigChunk : List Nat := List.replicate (BUFFER_MAX_SIZE + 1) 0

/-- Four 4096-byte chunks (the spec scenario), distinguishable in order. -/
def fourChunks : List (List Nat) :=
  [List.replicate 4096 0, List.replicate 4096 1, List.replicate 4096 2, List.replicate 4096 3]

/-- A text fragment containing the interruption marker. -/
def fragC3 : String := "so \x7b \"interrupted\" : true \x7d ok"

/-! ### Claims -/

/-- Claim C1, amended: for every sequence of audio chunks followed by an
explicit end-of-utterance, provided the total audio does not exceed the
100 KiB buffer cap (`add_audio` drops the oldest bytes past the cap),
exactly one turn is opened and closed and the bytes forwarded to the model
equal the in-order concatenation of all chunks received since the last
turn boundary. -/
theorem C1_turn_forwards_concatenation
    (s : NovaSession) (chunks : List (List Nat)) (responses : List InEvent) (p : Nat)
    (hact : s.nova.is_active = true) (hopen : s.nova.content_open = false)
    (hp : s.nova.prompt_name = some p)
    (hbuf : s.audio_processor.audio_buffer = [])
    (hne : chunks.flatten ≠ [])
    (hcap : chunks.flatten.length ≤ BUFFER_MAX_SIZE) :
    countTurnOpens (handle_end_of_utterance (chunks.foldl handle_audio_chunk s) responses).2.2 = 1 ∧
    countPromptEnds (handle_end_of_utterance (chunks.foldl handle_audio_chunk s) responses).2.2 = 1 ∧
    forwardedAudio (handle_end_of_utterance (chunks.foldl handle_audio_chunk s) responses).2.2 =
      chunks.flatten := by
  have hnova : (chunks.foldl handle_audio_chunk s).nova = s.nova :=
    foldl_handle_audio_chunk_nova chunks s
  have hbufF : (chunks.foldl handle_audio_chunk s).audio_processor.audio_buffer =
      chunks.flatten := by
    rw [foldl_handle_audio_chunk_buffer chunks s (by rw [hbuf]; exact Nat.zero_le _), hbuf,
        List.nil_append, takeLast_of_le hcap]
  have hbe : (chunks.foldl handle_audio_chunk s).audio_processor.audio_buffer.isEmpty = false := by
    rw [hbufF]
    cases h : chunks.flatten with
    | nil => exact absurd h hne
    | cons a l => rfl
  rw [handle_end_of_utterance_events _ responses hbe, hnova, hbufF,
      process_audio_simple_active s.nova _ responses hact hopen p hp]
  dsimp only
  refine ⟨countTurnOpens_turn _ _ _, countPromptEnds_turn _ _ _, ?_⟩
  rw [forwardedAudio_turn, chunkList_flatten chunk_size (by decide)]

/-- Claim C1 witness: the spec scenario of 4 chunks of 4096 bytes yields
one turn whose forwarded payload is their in-order concatenation. -/
theorem C1_witness :
    countTurnOpens (handle_end_of_utterance (fourChunks.foldl handle_audio_chunk cSession) []).2.2 = 1 ∧
    countPromptEnds (handle_end_of_utterance (fourChunks.foldl handle_audio_chunk cSession) []).2.2 = 1 ∧
    forwardedAudio (handle_end_of_utterance (fourChunks.foldl handle_audio_chunk cSession) []).2.2 =
      fourChunks.flatten := by
  have hlen : fourChunks.flatten.length = 16384 := by
    simp only [fourChunks, List.flatten_cons, List.flatten_nil, List.append_nil,
               List.length_append, List.length_replicate]
  refine C1_turn_forwards_concatenation cSession fourChunks [] 1 rfl rfl rfl rfl ?_ ?_
  · intro h
    have h0 := congrArg List.length h
    rw [hlen, List.length_nil] at h0
    exact absurd h0 (by omega)
  · rw [hlen]
    show (16384 : Nat) ≤ 100 * 1024
    omega

/-- Claim C1 counterexample: with a single chunk one byte over the buffer
cap, the bytes forwarded to the model are NOT the concatenation of the
chunks received (the oldest byte was dropped), so the claim as stated
(`regardless of chunk sizes`) is false. -/
theorem C1_counterexample :
    forwardedAudio (handle_end_of_utterance (handle_audio_chunk cSession bigChunk) []).2.2 ≠
      bigChunk := by
  have hcap : BUFFER_MAX_SIZE = 102400 := rfl
  have hbig : bigChunk.length = BUFFER_MAX_SIZE + 1 := by
    rw [bigChunk, List.length_replicate]
  have hnova : (handle_audio_chunk cSession bigChunk).nova = cSession.nova :=
    handle_audio_chunk_nova _ _
  have hbuf : (handle_audio_chunk cSession bigChunk).audio_processor.audio_buffer =
      takeLast BUFFER_MAX_SIZE bigChunk := by
    rw [handle_audio_chunk_buffer cSession bigChunk (Nat.zero_le _),
        show cSession.audio_processor.audio_buffer = [] from rfl, List.nil_append]
  have hbe : (handle_audio_chunk cSession bigChunk).audio_processor.audio_buffer.isEmpty = false := by
    rw [hbuf, Bool.eq_false_iff]
    intro h
    have hlen := congrArg List.length (List.isEmpty_iff.mp h)
    rw [length_takeLast, List.length_nil, hbig, hcap] at hlen
    omega
  rw [handle_end_of_utterance_events _ [] hbe, hnova, hbuf,
      process_audio_simple_active cSession.nova _ [] rfl rfl 1 rfl]
  dsimp only
  rw [forwardedAudio_turn, chunkList_flatten chunk_size (by decide)]
  intro h
  have hlen := congrArg List.length h
  rw [length_takeLast, hbig, hcap] at hlen
  omega

/-- Claim C2, amended: when the inactivity watchdog triggers while
listening, it stops listening and closes the current turn on the adapter
(content-end then prompt-end, when the adapter is active); it does NOT
flush the buffered audio as a turn: no audio is sent, no turn is opened,
and the audio buffer is left untouched (not cleared). -/
theorem C2_watchdog_closes_without_flush (s : NovaSession) (p c : Nat)
    (hact : s.nova.is_active = true) (hp : s.nova.prompt_name = some p)
    (hc : s.nova.audio_content_name = some c) :
    (inactivity_watchdog_trigger s).1.is_listening = false ∧
    (inactivity_watchdog_trigger s).1.audio_processor = s.audio_processor ∧
    (inactivity_watchdog_trigger s).2.1 =
      [OutEvent.contentEnd (some p) (some c), OutEvent.promptEnd (some p)] ∧
    forwardedAudio (inactivity_watchdog_trigger s).2.1 = [] ∧
    countTurnOpens (inactivity_watchdog_trigger s).2.1 = 0 := by
  unfold inactivity_watchdog_trigger
  rw [if_pos hact, end_audio_input_spec s.nova p c hp hc]
  exact ⟨rfl, rfl, rfl, rfl, rfl⟩

/-- Claim C2 witness: concrete triggered watchdog on an active session. -/
theorem C2_witness :
    (inactivity_watchdog_trigger cSessionBuf).1.is_listening = false ∧
    (inactivity_watchdog_trigger cSessionBuf).1.audio_processor = cSessionBuf.audio_processor ∧
    (inactivity_watchdog_trigger cSessionBuf).2.1 =
      [OutEvent.contentEnd (some 1) (some 3), OutEvent.promptEnd (some 1)] ∧
    forwardedAudio (inactivity_watchdog_trigger cSessionBuf).2.1 = [] ∧
    countTurnOpens (inactivity_watchdog_trigger cSessionBuf).2.1 = 0 :=
  C2_watchdog_closes_without_flush cSessionBuf 1 3 rfl rfl rfl

/-- Claim C2 counterexample: after the watchdog triggers on a listening
session with buffered bytes `[1,2,3]`, the buffer still holds `[1,2,3]`
(not empty as claimed), no audio was forwarded and no turn was opened —
the claimed flush (`open_turn` → `send_audio` → `close_turn` →
`drain_turn_result`, then clear buffer) does not happen. -/
theorem C2_counterexample :
    (inactivity_watchdog_trigger cSessionBuf).1.audio_processor.audio_buffer = [1, 2, 3] ∧
    (inactivity_watchdog_trigger cSessionBuf).1.audio_processor.audio_buffer ≠ [] ∧
    forwardedAudio (inactivity_watchdog_trigger cSessionBuf).2.1 = [] ∧
    countTurnOpens (inactivity_watchdog_trigger cSessionBuf).2.1 = 0 := by
  decide

/-- Claim C3, amended: a text fragment containing the interruption marker
makes the reader enqueue a barge-in control event, but the fragment is
ALSO still queued as text (there is no reclassification), and when the
tracked role is ASSISTANT it is appended to the transcript returned for
the turn. -/
theorem C3_barge_in_also_queued_as_text (st : NovaClient) (content : String) (b : List Nat)
    (h : strContains content bargeInMarker = true) :
    process_response_event st (InEvent.textOutput content) =
      { st with event_queue := st.event_queue ++ [NEvent.barge_in],
                text_queue := st.text_queue ++ [{ role := st.role, text := content }] } ∧
    (st.role = some "ASSISTANT" → ∀ rs : List InEvent,
      (process_audio_simple st b (InEvent.textOutput content :: rs)).2.2.text =
        String.intercalate " " (content :: assistantTexts (some "ASSISTANT") rs)) := by
  constructor
  · unfold process_response_event
    simp [h]
  · intro hrole rs
    rw [process_audio_simple_result, (mkDrainResult_audio_text _ _).2]
    simp [assistantTexts, collectTexts, hrole]

/-- Claim C3 witness: concrete marker-bearing fragment with ASSISTANT role. -/
theorem C3_witness :
    (process_response_event cClientA (InEvent.textOutput fragC3) =
      { cClientA with event_queue := cClientA.event_queue ++ [NEvent.barge_in],
                      text_queue := cClientA.text_queue ++
                        [{ role := cClientA.role, text := fragC3 }] }) ∧
    (process_audio_simple cClientA [0] [InEvent.textOutput fragC3]).2.2.text =
      String.intercalate " " [fragC3] := by
  have h := C3_barge_in_also_queued_as_text cClientA fragC3 [0] (by decide)
  exact ⟨h.1, by simpa [assistantTexts, collectTexts] using h.2 rfl []⟩

/-- Claim C3 counterexample: a fragment containing the interruption marker
IS appended to the transcript text returned for the turn (while also
being flagged as barge-in), refuting `reclassified ... rather than text,
and the fragment is not appended to the transcript`. -/
theorem C3_counterexample :
    strContains fragC3 bargeInMarker = true ∧
    (process_audio_simple cClient [0]
        [InEvent.contentStart (some "ASSISTANT") none, InEvent.textOutput fragC3]).2.2.text =
      fragC3 ∧
    NEvent.barge_in ∈ (process_audio_simple cClient [0]
        [InEvent.contentStart (some "ASSISTANT") none, InEvent.textOutput fragC3]).1.event_queue := by
  decide

/-- Claim C4: when the drain collects zero audio and zero assistant text
for the turn, `process_audio_simple` returns success=false with empty
audio and empty text (it does not raise), and the session then sends
exactly one outbound `error` message — in particular no `audio_output`,
`transcript` or `inference_complete` message.  (The error string the
client sees is the one produced by the metadata-mode check in
`process_with_nova`, whose `except` clause converts the failure into the
single error message.) -/
theorem C4_drain_timeout_single_error (s : NovaSession) (responses : List InEvent)
    (hbuf : s.audio_processor.audio_buffer.isEmpty = false)
    (hnoaudio : collectAudio responses = [])
    (hnotext : assistantTexts s.nova.role responses = []) :
    ((process_audio_simple s.nova s.audio_processor.audio_buffer responses).2.2.success = false ∧
     (process_audio_simple s.nova s.audio_processor.audio_buffer responses).2.2.audio = [] ∧
     (process_audio_simple s.nova s.audio_processor.audio_buffer responses).2.2.text = "" ∧
     (process_audio_simple s.nova s.audio_processor.audio_buffer responses).2.2.error =
       some "No response received from BIDIRECTIONAL stream") ∧
    (handle_end_of_utterance s responses).2.1 =
      [ServerMsg.error "Must use bidirectional_stream mode"] := by
  have hres : (process_audio_simple s.nova s.audio_processor.audio_buffer responses).2.2 =
      { success := false, audio := [], text := "",
        error := some "No response received from BIDIRECTIONAL stream",
        metadata_mode := none } := by
    rw [process_audio_simple_result, hnoaudio, hnotext]
    rfl
  refine ⟨⟨by rw [hres], by rw [hres], by rw [hres], by rw [hres]⟩, ?_⟩
  unfold handle_end_of_utterance clear_buffer process_with_nova stop_listening
  dsimp only
  simp only [hbuf, Bool.false_eq_true, if_false]
  rw [hres]
  simp

/-- Claim C4 witness: a buffered turn whose drain window sees no stream
responses yields the failure result and a single error message. -/
theorem C4_witness :
    ((process_audio_simple cSessionBuf.nova cSessionBuf.audio_processor.audio_buffer []).2.2.success
        = false ∧
     (process_audio_simple cSessionBuf.nova cSessionBuf.audio_processor.audio_buffer []).2.2.audio
        = [] ∧
     (process_audio_simple cSessionBuf.nova cSessionBuf.audio_processor.audio_buffer []).2.2.text
        = "" ∧
     (process_audio_simple cSessionBuf.nova cSessionBuf.audio_processor.audio_buffer []).2.2.error
        = some "No response received from BIDIRECTIONAL stream") ∧
    (handle_end_of_utterance cSessionBuf []).2.1 =
      [ServerMsg.error "Must use bidirectional_stream mode"] :=
  C4_drain_timeout_single_error cSessionBuf [] rfl rfl rfl

/-- Claim C5: `close_turn` (`end_audio_input`) with an active turn emits a
content-end followed by a prompt-end (in that order), increments both end
counters, warns (never raises) exactly when the start/end counters
mismatch, clears the content identifier and marks content closed; with no
active turn/prompt it is a no-op with a warning; and after every completed
turn the turn (content) start counter equals the turn end counter. -/
theorem C5_close_turn_pairing_and_balance :
    (∀ (st : NovaClient) (p c : Nat), st.prompt_name = some p → st.audio_content_name = some c →
      (end_audio_input st).2.1 =
        [OutEvent.contentEnd (some p) (some c), OutEvent.promptEnd (some p)] ∧
      (end_audio_input st).1.content_ends = st.content_ends + 1 ∧
      (end_audio_input st).1.prompt_ends = st.prompt_ends + 1 ∧
      (end_audio_input st).1.audio_content_name = none ∧
      (end_audio_input st).1.content_open = false ∧
      ((end_audio_input st).2.2 ≠ [] ↔
        (st.content_starts ≠ st.content_ends + 1 ∨ st.prompt_starts ≠ st.prompt_ends + 1))) ∧
    (∀ st : NovaClient, st.prompt_name = none ∨ st.audio_content_name = none →
      end_audio_input st = (st, [], ["No active prompt/content to close"])) ∧
    (∀ turns : List (List Nat × List InEvent),
      (turns.foldl doTurn initClient).content_starts =
        (turns.foldl doTurn initClient).content_ends ∧
      (turns.foldl doTurn initClient).content_open = false) := by
  refine ⟨?_, ?_, ?_⟩
  · intro st p c hp hc
    rw [end_audio_input_spec st p c hp hc]
    refine ⟨rfl, rfl, rfl, rfl, rfl, ?_⟩
    by_cases h1 : st.content_starts = st.content_ends + 1 <;>
      by_cases h2 : st.prompt_starts = st.prompt_ends + 1 <;>
        simp [h1, h2]
  · intro st h
    exact end_audio_input_noop st h
  · intro turns
    have h := foldl_doTurn_balanced turns
    exact ⟨h.2.1, h.1⟩

/-- Claim C5 witness: a concrete close of an open turn, a concrete no-op
close, and counter balance after one completed turn. -/
theorem C5_witness :
    (end_audio_input cClient).2.1 =
      [OutEvent.contentEnd (some 1) (some 3), OutEvent.promptEnd (some 1)] ∧
    end_audio_input initClient = (initClient, [], ["No active prompt/content to close"]) ∧
    (([([0], [])] : List (List Nat × List InEvent)).foldl doTurn initClient).content_starts =
      (([([0], [])] : List (List Nat × List InEvent)).foldl doTurn initClient).content_ends :=
  ⟨(C5_close_turn_pairing_and_balance.1 cClient 1 3 rfl rfl).1,
   C5_close_turn_pairing_and_balance.2.1 initClient (Or.inl rfl),
   (C5_close_turn_pairing_and_balance.2.2 [([0], [])]).1⟩

/-- Claim C6, amended: audio chunks are only forwarded to the model while
the stream is active and content is open: a call with an inactive stream
is a SILENT no-op (no warning is logged on that path), a call with no open
content is a no-op with a warning, and otherwise exactly one audio-input
event carrying the bytes is emitted. -/
theorem C6_send_audio_guarded :
    (∀ (st : NovaClient) (b : List Nat), st.is_active = false →
      send_audio_chunk st b = (st, [], [])) ∧
    (∀ (st : NovaClient) (b : List Nat), st.is_active = true →
      st.content_open = false ∨ st.audio_content_name = none →
      send_audio_chunk st b = (st, [], ["Rejecting audio chunk - no open content"])) ∧
    (∀ (st : NovaClient) (b : List Nat), st.is_active = true → st.content_open = true →
      st.audio_content_name.isSome = true →
      send_audio_chunk st b =
        (st, [OutEvent.audioInput st.prompt_name st.audio_content_name b], [])) ∧
    (∀ (st : NovaClient) (b : List Nat), (send_audio_chunk st b).2.1 ≠ [] →
      st.is_active = true ∧ st.content_open = true) := by
  refine ⟨?_, ?_, ?_, ?_⟩
  · intro st b h
    unfold send_audio_chunk
    simp [h]
  · intro st b ha h
    unfold send_audio_chunk
    rcases h with h | h <;> simp [ha, h]
  · intro st b ha ho hs
    exact send_audio_chunk_open st b ha ho hs
  · intro st b h
    unfold send_audio_chunk at h
    by_cases ha : st.is_active = true
    · by_cases ho : st.content_open = true
      · exact ⟨ha, ho⟩
      · exfalso
        apply h
        have ho' : st.content_open = false := by
          cases hb : st.content_open
          · rfl
          · exact absurd hb ho
        simp [ha, ho']
    · exfalso
      apply h
      have ha' : st.is_active = false := by
        cases hb : st.is_active
        · rfl
        · exact absurd hb ha
      simp [ha']

/-- Claim C6 witness: the three guard cases at concrete states. -/
theorem C6_witness :
    send_audio_chunk initClient [5] = (initClient, [], []) ∧
    send_audio_chunk cClient [5] =
      (cClient, [], ["Rejecting audio chunk - no open content"]) ∧
    send_audio_chunk cClientOpen [5] =
      (cClientOpen, [OutEvent.audioInput cClientOpen.prompt_name cClientOpen.audio_content_name [5]],
       []) :=
  ⟨C6_send_audio_guarded.1 initClient [5] rfl,
   C6_send_audio_guarded.2.1 cClient [5] rfl (Or.inl rfl),
   C6_send_audio_guarded.2.2.1 cClientOpen [5] rfl rfl rfl⟩

/-- Claim C6 counterexample: a `send_audio` call on an inactive stream is
a no-op but logs NO warning (the source returns before any logging),
refuting the claim that both guard paths warn. -/
theorem C6_counterexample :
    (send_audio_chunk initClient [1]).2.1 = [] ∧
    (send_audio_chunk initClient [1]).2.2 = [] := by
  decide

/-- Claim C7, amended: across every sequence of `add_audio` calls the
buffer never exceeds the fixed cap and always holds the most-recent
`min(total, cap)` bytes (oldest bytes dropped), and no error is raised
(`add_audio` is total); however the truncation is SILENT — the source
contains no logging or counting of the dropped bytes, so the log output
of every call is empty. -/
theorem C7_buffer_bounded_silent (datas : List (List Nat)) :
    (datas.foldl (fun a d => (add_audio a d).1) initAudioProcessor).audio_buffer.length ≤
      BUFFER_MAX_SIZE ∧
    (datas.foldl (fun a d => (add_audio a d).1) initAudioProcessor).audio_buffer =
      takeLast BUFFER_MAX_SIZE datas.flatten ∧
    (∀ (ap : AudioProcessor) (d : List Nat), (add_audio ap d).2.2 = []) := by
  have hbuf := foldl_add_audio_buffer datas initAudioProcessor (Nat.zero_le _)
  rw [show initAudioProcessor.audio_buffer = [] from rfl, List.nil_append] at hbuf
  refine ⟨?_, hbuf, fun ap d => rfl⟩
  rw [hbuf, length_takeLast]
  omega

/-- Claim C7 counterexample: a call that overruns the cap drops the oldest
byte (the buffer is strictly shorter than the data added) yet produces no
log output at all — the truncation is neither logged nor counted,
refuting that conjunct of the claim. -/
theorem C7_counterexample :
    (add_audio initAudioProcessor bigChunk).2.2 = [] ∧
    (add_audio initAudioProcessor bigChunk).1.audio_buffer.length < bigChunk.length := by
  refine ⟨rfl, ?_⟩
  rw [add_audio_buffer, show initAudioProcessor.audio_buffer = [] from rfl, List.nil_append,
      length_takeLast, show bigChunk.length = BUFFER_MAX_SIZE + 1 from by
        rw [bigChunk, List.length_replicate],
      show BUFFER_MAX_SIZE = 102400 from rfl]
  omega

/-- Claim C8: session teardown is idempotent — a teardown on an inactive
adapter is a no-op, and a second teardown right after a first one changes
nothing and emits nothing (no duplicate outbound events, no error since
the function is total). -/
theorem C8_end_session_idempotent :
    (∀ st : NovaClient, st.is_active = false → end_session st = (st, [])) ∧
    (∀ st : NovaClient, end_session (end_session st).1 = ((end_session st).1, [])) := by
  constructor
  · intro st h
    unfold end_session
    simp [h]
  · intro st
    unfold end_session
    by_cases h : st.is_active = true
    · simp [h]
    · have h' : st.is_active = false := by
        cases hb : st.is_active
        · rfl
        · exact absurd hb h
      simp [h']

/-- Claim C8 witness: teardown twice on an active client and once on an
inactive one. -/
theorem C8_witness :
    end_session initClient = (initClient, []) ∧
    end_session (end_session cClient).1 = ((end_session cClient).1, []) :=
  ⟨C8_end_session_idempotent.1 initClient rfl, C8_end_session_idempotent.2 cClient⟩

/-- Claim C9, amended: on `initialize_session` a session is created and
`session_initialized` replied iff the token is non-empty and EITHER the
external identity collaborator verifies it OR it is one of the development
test tokens (`mock-token-for-testing` or a `test-` prefix); whenever
verification yields nothing at all the server replies with a single
`error` message and no session is created. -/
theorem C9_auth_gate :
    (∀ (token : String) (validator : Option UserInfo),
      (handle_initialize_session token validator).1.isSome = true ↔
        (token ≠ "" ∧ (validator.isSome = true ∨ token = "mock-token-for-testing" ∨
                       pyStartsWith token "test-" = true))) ∧
    (∀ (token : String) (validator : Option UserInfo),
      verify_auth_token token validator = none →
      handle_initialize_session token validator =
        (none, [ServerMsg.error "Authentication failed"])) ∧
    (∀ (token : String) (u : UserInfo), token ≠ "" →
      handle_initialize_session token (some u) =
        (some initSession, [ServerMsg.session_initialized "session"])) := by
  refine ⟨?_, ?_, ?_⟩
  · intro token validator
    unfold handle_initialize_session verify_auth_token
    by_cases ht : token = ""
    · simp [ht]
    · cases validator with
      | some u => simp [ht]
      | none =>
        by_cases hm : token = "mock-token-for-testing"
        · simp [ht, hm]
        · by_cases hs : pyStartsWith token "test-" = true
          · simp [ht, hm, hs]
          · simp [ht, hm, hs]
  · intro token validator h
    unfold handle_initialize_session
    rw [h]
  · intro token u ht
    unfold handle_initialize_session verify_auth_token
    simp [ht]

/-- Claim C9 witness: validated token creates a session; a token the
verifier rejects outright yields one error and no session. -/
theorem C9_witness :
    handle_initialize_session "tok" (some testUser) =
      (some initSession, [ServerMsg.session_initialized "session"]) ∧
    handle_initialize_session "" none = (none, [ServerMsg.error "Authentication failed"]) ∧
    ((handle_initialize_session "bad-token" none).1.isSome = true ↔
      ("bad-token" ≠ "" ∧ ((none : Option UserInfo).isSome = true ∨
        "bad-token" = "mock-token-for-testing" ∨ pyStartsWith "bad-token" "test-" = true))) :=
  ⟨C9_auth_gate.2.2 "tok" testUser (by decide),
   C9_auth_gate.2.1 "" none rfl,
   C9_auth_gate.1 "bad-token" none⟩

/-- Claim C9 counterexample: with a `test-` prefixed token the external
collaborator FAILS verification (`none`), yet a session is created and
`session_initialized` is replied — the development fallback bypasses the
collaborator, refuting `only when the external identity collaborator
successfully verifies` and `whenever verification fails ... no session is
created`. -/
theorem C9_counterexample :
    (handle_initialize_session "test-token" none).1.isSome = true ∧
    (handle_initialize_session "test-token" none).2 =
      [ServerMsg.session_initialized "session"] := by
  decide

/-- Claim C10: for every drained turn result the returned text is the
space-separated join of exactly the ASSISTANT-role fragments the reader
queued during that turn, and the returned audio the concatenation of the
queued audio payloads — independently of whatever the audio/text queues
held before the turn (they are cleared first), so fragments of a previous
turn never appear; USER-role fragments are dequeued but never joined. -/
theorem C10_transcript_assistant_only (st : NovaClient) (b : List Nat) (rs : List InEvent) :
    (process_audio_simple st b rs).2.2.text =
      String.intercalate " " (assistantTexts st.role rs) ∧
    (process_audio_simple st b rs).2.2.audio = (collectAudio rs).flatten ∧
    (∀ (u : String) (rs2 : List InEvent),
      assistantTexts (some "USER") (InEvent.textOutput u :: rs2) =
        assistantTexts (some "USER") rs2) := by
  refine ⟨?_, ?_, ?_⟩
  · rw [process_audio_simple_result]
    exact (mkDrainResult_audio_text _ _).2
  · rw [process_audio_simple_result]
    exact (mkDrainResult_audio_text _ _).1
  · intro u rs2
    unfold assistantTexts
    have h1 : collectTexts (some "USER") (InEvent.textOutput u :: rs2) =
        { role := some "USER", text := u } :: collectTexts (some "USER") rs2 := rfl
    have h2 : (({ role := some "USER", text := u } : TextData).role == some "ASSISTANT") =
        false := rfl
    rw [h1, List.filter_cons, h2]
    simp
